import Mathlib

/-!
Shallow embedding of `src/main.py` of the salmon-run-notifier repository.

Modelling conventions:
* Instants are integer epoch seconds (`Int`).  The program manipulates
  timezone-aware datetimes; a "local" instant is the epoch instant plus a
  fixed timezone offset `off` in seconds.  Sub-second precision and
  daylight-saving transitions are below the granularity of this model
  (the latter is a documented limitation of the program itself).
* An ISO-8601 `start_time` string, for a fixed timezone, is in bijection
  with its instant, so ledger entries are modelled as the instants
  themselves (`Int`).
* File states are modelled explicitly: `none` means the file is absent;
  `some none` means the file exists but its content does not parse as the
  expected JSON (this includes an empty file, since `json.load` raises on
  empty input); `some (some v)` means the file parses to the value `v`.
* Python exceptions are modelled with `Except Unit`; an uncaught exception
  is a propagated `.error ()`.
-/

namespace SalmonRun

/-- State of the alert-ledger file `config/last.alert`: absent, corrupt
(unparseable, including empty), or a parsed JSON list of alert records,
each carrying a `start_time` (modelled by its instant). -/
abbrev LedgerFile := Option (Option (List Int))

/-- Embeds `has_been_alerted`: returns `false` when the file is absent;
otherwise `json.load` runs (raising on corrupt content) and the rotation's
`start_time` is looked up among the records. -/
def has_been_alerted (file : LedgerFile) (startTime : Int) : Except Unit Bool :=
  match file with
  | none => .ok false
  | some none => .error ()
  | some (some alerts) => .ok (alerts.contains startTime)

/-- Python's `alerts[-3:]`: the last three elements of a list. -/
def lastThree (l : List Int) : List Int := l.drop (l.length - 3)

/-- Embeds `_update_alert_file`: read the existing records (absent file
means an empty list; corrupt content raises), append the new record, and
write back only the last three records. -/
def _update_alert_file (startTime : Int) (file : LedgerFile) : Except Unit LedgerFile :=
  match file with
  | none => .ok (some (some (lastThree ([] ++ [startTime]))))
  | some none => .error ()
  | some (some alerts) => .ok (some (some (lastThree (alerts ++ [startTime]))))

/-- Sequentially records a list of start times through `_update_alert_file`,
threading the ledger-file state. -/
def recordAll : List Int → LedgerFile → Except Unit LedgerFile
  | [], f => .ok f
  | s :: rest, f =>
    match _update_alert_file s f with
    | .error e => .error e
    | .ok f' => recordAll rest f'

/-- A normalized rotation, the dictionary built by `_tidy_rotation`.
`start_time` and `end_time` are the rotation's instants (epoch seconds). -/
structure Rotation where
  seconds_until_rotation : Int
  stage : String
  boss : String
  weapons : List String
  type : String
  start_time : Int
  end_time : Int
  deriving Repr, DecidableEq

/-- Outcome of one `notifier.notify` invocation: the collaborator either
returns a success/failure boolean (the program ignores it) or raises. -/
inductive NotifierResult where
  | ok (delivered : Bool)
  | exn
  deriving Repr, DecidableEq

/-- Observable state threaded through `send_notification`: the ledger file
and the list of delivery attempts made (identified by the rotation's
`start_time`), in order. -/
structure NotifyWorld where
  ledgerFile : LedgerFile
  sent : List Int
  deriving Repr, DecidableEq

/-- Embeds `send_notification`.  The `has_been_alerted` guard runs outside
the `try` block, so a ledger read error propagates.  If the rotation was
already alerted the function returns at once.  Otherwise the notifier is
invoked; if it raises, the exception is caught and the ledger is left
unchanged; if it returns (either boolean), `_update_alert_file` runs, and
an error raised there is likewise caught, leaving the ledger unchanged. -/
def send_notification (rot : Rotation) (notifier : NotifierResult) (w : NotifyWorld) :
    Except Unit NotifyWorld :=
  match has_been_alerted w.ledgerFile rot.start_time with
  | .error e => .error e
  | .ok true => .ok w
  | .ok false =>
    let w1 : NotifyWorld := { w with sent := w.sent ++ [rot.start_time] }
    match notifier with
    | .exn => .ok w1
    | .ok _ =>
      match _update_alert_file rot.start_time w1.ledgerFile with
      | .error _ => .ok w1
      | .ok f => .ok { w1 with ledgerFile := f }

/-- Hour-of-day of a local instant, as `check_time.hour` on a datetime. -/
def hourOf (t : Int) : Int := (t % 86400) / 3600

/-- Midnight of the calendar day containing a local instant. -/
def dayStart (t : Int) : Int := t - t % 86400

/-- Embeds `_is_within_quiet_hours`:
`config.alert_quiet_start <= check_time.hour < config.alert_quiet_end`. -/
def _is_within_quiet_hours (t qs qe : Int) : Bool :=
  decide (qs ≤ hourOf t) && decide (hourOf t < qe)

/-- Embeds `_calculate_sleep_until_quiet_end` on local instants:
`reference_time.replace(hour=quiet_end, minute=0, second=0)`, bumped by one
day when not strictly after now, minus now.  The function's two `now()`
reads are modelled as the same instant. -/
def _calculate_sleep_until_quiet_end (ref now qe : Int) : Int :=
  let quietEnd := dayStart ref + qe * 3600
  let quietEnd := if quietEnd ≤ now then quietEnd + 86400 else quietEnd
  quietEnd - now

/-- The `sleep_time` computed by `_sleep_until_rotation` before it sleeps
and calls `send_notification`.  `now` is the current epoch instant and
`off` the fixed local-timezone offset in seconds. -/
def sleepTime (next : Rotation) (now off qs qe : Int) : Int :=
  if next.seconds_until_rotation ≤ 0 then
    if _is_within_quiet_hours (now + off) qs qe then
      _calculate_sleep_until_quiet_end (now + off) (now + off) qe
    else 0
  else if _is_within_quiet_hours (next.start_time + off) qs qe then
    _calculate_sleep_until_quiet_end (next.start_time + off) (now + off) qe
  else
    next.seconds_until_rotation

/-- One pass of the failure-tracking logic of `main`'s loop: given the
cycle's success flag (`tidy_schedules` returned a nonempty list), the
current time and the threshold, returns the new `failure_start_time`
and whether `notify_failure` was called this cycle. -/
def mainStep (threshold : Int) (st : Option Int) (now : Int) (success : Bool) :
    Option Int × Bool :=
  if success then (none, false)
  else
    match st with
    | none => (some now, false)
    | some t0 => if now - t0 > threshold then (none, true) else (some t0, false)

/-- Runs `mainStep` over a trace of cycles, each a pair of the cycle's
time and success flag; returns the final `failure_start_time` and the
number of `notify_failure` calls. -/
def runFail (threshold : Int) : List (Int × Bool) → Option Int → Option Int × Nat
  | [], st => (st, 0)
  | e :: rest, st =>
    let r := mainStep threshold st e.1 e.2
    let k := runFail threshold rest r.1
    (k.1, (if r.2 then 1 else 0) + k.2)

/-- A raw weapon node: `{"name": ..., "__splatoon3ink_id": ...}`. -/
structure RawWeapon where
  name : String
  splatoon3ink_id : String
  deriving Repr, DecidableEq

/-- The raw `setting` object of a rotation node.  A `none` field models a
missing JSON key (subscript access raises `KeyError`); for `boss`,
`some none` models an explicit JSON `null` (rendered as `"Random"`). -/
structure RawSetting where
  coopStage : Option String
  boss : Option (Option String)
  weapons : Option (List RawWeapon)
  deriving Repr, DecidableEq

/-- A raw rotation node.  `startTime`/`endTime` are `none` when the key is
missing or the timestamp does not parse (`fromisoformat` raises); otherwise
they carry the parsed instant in epoch seconds. -/
structure RawRotation where
  startTime : Option Int
  endTime : Option Int
  setting : Option RawSetting
  deriving Repr, DecidableEq

/-- Embeds `_tidy_rotation`: reformat one raw node, raising (`KeyError` or
`ValueError`) when a required field is missing or malformed.  `now` is the
value of this call's own `datetime.now().timestamp()` read. -/
def _tidy_rotation (rotation : RawRotation) (schedule_type : String) (now : Int) :
    Except Unit Rotation :=
  match rotation.startTime, rotation.endTime, rotation.setting with
  | some start, some stop, some s =>
    match s.coopStage, s.boss, s.weapons with
    | some stage, some bossOpt, some weps =>
      .ok { seconds_until_rotation := start - now
            stage := stage
            boss := match bossOpt with | some n => n | none => "Random"
            weapons := weps.map fun we =>
              if we.splatoon3ink_id == "747937841598fff7" then "Grizzco Random" else we.name
            type := schedule_type
            start_time := start
            end_time := stop }
    | _, _, _ => .error ()
  | _, _, _ => .error ()

/-- Flattens the grouped schedules into the order in which the list
comprehension of `tidy_schedules` visits the rotation nodes. -/
def flattenSchedules (schedules : List (String × List RawRotation)) :
    List (String × RawRotation) :=
  (schedules.map fun p => p.2.map fun rot => (p.1, rot)).flatten

/-- Tidies the flattened nodes in order.  The comprehension calls
`datetime.now()` once per item, so the item at position `i` (counting from
the given base index) reads the clock sample `clock i`.  The first raised
error aborts the whole comprehension. -/
def tidyAll (clock : Nat → Int) : Nat → List (String × RawRotation) → Except Unit (List Rotation)
  | _, [] => .ok []
  | i, p :: rest =>
    match _tidy_rotation p.2 p.1 (clock i) with
    | .error e => .error e
    | .ok r =>
      match tidyAll clock (i + 1) rest with
      | .error e => .error e
      | .ok rs => .ok (r :: rs)

/-- Stable insertion of a rotation into a list sorted ascending by
`seconds_until_rotation`: the new element goes after existing elements
with a key less than or equal to its own. -/
def insertSorted (r : Rotation) : List Rotation → List Rotation
  | [] => [r]
  | b :: bs =>
    if b.seconds_until_rotation ≤ r.seconds_until_rotation then b :: insertSorted r bs
    else r :: b :: bs

/-- Python's `sorted(_, key=itemgetter("seconds_until_rotation"))`: a
stable ascending sort, modelled as a left-to-right insertion sort. -/
def sortBySeconds (l : List Rotation) : List Rotation :=
  l.foldl (fun acc r => insertSorted r acc) []

/-- The filter condition of the final comprehension of `tidy_schedules`:
keep a rotation if it has not started yet, or (short-circuit) if it has
never been alerted; the ledger read may raise. -/
def keepRotation (ledger : LedgerFile) (r : Rotation) : Except Unit Bool :=
  if r.seconds_until_rotation > 0 then .ok true
  else
    match has_been_alerted ledger r.start_time with
    | .error e => .error e
    | .ok fired => .ok (!fired)

/-- Applies `keepRotation` along the sorted list, propagating errors. -/
def filterKeep (ledger : LedgerFile) : List Rotation → Except Unit (List Rotation)
  | [] => .ok []
  | r :: rs =>
    match keepRotation ledger r with
    | .error e => .error e
    | .ok k =>
      match filterKeep ledger rs with
      | .error e => .error e
      | .ok rest => .ok (if k then r :: rest else rest)

/-- Embeds `tidy_schedules`: tidy every node, sort, and filter out
already-alerted past rotations; any exception raised anywhere in the body
is caught and yields the empty list. -/
def tidy_schedules (schedules : List (String × List RawRotation)) (clock : Nat → Int)
    (ledger : LedgerFile) : List Rotation :=
  match tidyAll clock 0 (flattenSchedules schedules) with
  | .error _ => []
  | .ok tidied =>
    match filterKeep ledger (sortBySeconds tidied) with
    | .error _ => []
    | .ok kept => kept

/-- A schedule-group value of the raw payload: `none` models JSON `null`;
`some o` is an object whose `nodes` field is `none` when the `"nodes"` key
is absent. -/
structure NodesObj where
  nodes : Option (List RawRotation)
  deriving Repr, DecidableEq

/-- The raw `coopGroupingSchedule` payload: the three named schedule
groups plus any further values (such as `bannerImage`) that
`cached_data.values()` also iterates. -/
structure RawPayload where
  regularSchedules : Option NodesObj
  bigRunSchedules : Option NodesObj
  teamContestSchedules : Option NodesObj
  extras : List (Option NodesObj)
  deriving Repr, DecidableEq

/-- The values iterated by `cached_data.values()`. -/
def RawPayload.values (p : RawPayload) : List (Option NodesObj) :=
  [p.regularSchedules, p.bigRunSchedules, p.teamContestSchedules] ++ p.extras

/-- The rotation nodes visited by the expiry generator of
`_cache_is_valid`: every node of every non-null group that has a
`"nodes"` key. -/
def cacheNodes (p : RawPayload) : List RawRotation :=
  ((p.values.filterMap id).filterMap fun o => o.nodes).flatten

/-- State of the cache file `config/cache.temp`: absent, corrupt, or a
parsed raw payload. -/
abbrev CacheFile := Option (Option RawPayload)

/-- Parses every node's `endTime` in generator order, failing at the
first unparseable one (`fromisoformat` raises `ValueError`). -/
def endTimesAll : List RawRotation → Option (List Int)
  | [] => some []
  | r :: rs =>
    match r.endTime with
    | none => none
    | some t =>
      match endTimesAll rs with
      | none => none
      | some ts => some (t :: ts)

/-- Embeds `_cache_is_valid`: an absent file is invalid; a corrupt file
makes `json.load` raise; otherwise the earliest `endTime` across all nodes
is computed (an unparseable timestamp raises `ValueError`, and `min` of an
empty generator raises `ValueError` as well) and the cache is valid only
while `time.time()` is strictly before it. -/
def _cache_is_valid (cache : CacheFile) (now : Int) : Except Unit Bool :=
  match cache with
  | none => .ok false
  | some none => .error ()
  | some (some p) =>
    match endTimesAll (cacheNodes p) with
    | none => .error ()
    | some ts =>
      match ts.min? with
      | none => .error ()
      | some m => .ok (now < m)

/-- Embeds `_extract_schedule_nodes`: subscript access to the three named
groups and their `"nodes"` keys, raising on a missing key or a `null`
group. -/
def _extract_schedule_nodes (p : RawPayload) : Except Unit (List (String × List RawRotation)) :=
  match p.regularSchedules, p.bigRunSchedules, p.teamContestSchedules with
  | some r, some b, some t =>
    match r.nodes, b.nodes, t.nodes with
    | some rn, some bn, some tn =>
      .ok [("Regular", rn), ("Big Run", bn), ("Eggstra Work", tn)]
    | _, _, _ => .error ()
  | _, _, _ => .error ()

/-- Embeds `_load_cached_data`: re-read and re-parse the cache file, then
extract the schedule nodes; raises if the file is absent or corrupt. -/
def _load_cached_data (cache : CacheFile) : Except Unit (List (String × List RawRotation)) :=
  match cache with
  | some (some p) => _extract_schedule_nodes p
  | _ => .error ()

/-- The schedule value returned by `get_schedules` when the HTTP request
raises `requests.RequestException`. -/
def emptySchedules : List (String × List RawRotation) :=
  [("Regular", []), ("Big Run", []), ("Eggstra Work", [])]

/-- Embeds `get_schedules`.  `fetch` is the outcome of the HTTP
collaborator: `.error ()` models a raised `requests.RequestException`
(caught, yielding `emptySchedules`); `.ok p` models a successful response
whose body parses to the payload `p`.  An exception raised by
`_cache_is_valid`, `_load_cached_data`, or by `_extract_schedule_nodes`
on the fetched payload propagates out. -/
def get_schedules (cache : CacheFile) (now : Int) (fetch : Except Unit RawPayload) :
    Except Unit (List (String × List RawRotation)) :=
  match _cache_is_valid cache now with
  | .error e => .error e
  | .ok true => _load_cached_data cache
  | .ok false =>
    match fetch with
    | .error _ => .ok emptySchedules
    | .ok p => _extract_schedule_nodes p

/-! Helper lemmas. -/

/-- The written ledger list never exceeds three records. -/
lemma lastThree_length_le (l : List Int) : (lastThree l).length ≤ 3 := by
  simp [lastThree]
  omega

/-- The just-appended record survives the truncation to the last three. -/
lemma mem_lastThree_snoc (l : List Int) (a : Int) : a ∈ lastThree (l ++ [a]) := by
  unfold lastThree
  rw [List.drop_append_of_le_length (by simp)]
  simp

/-! Claim theorems. -/

/-- C9 counterexample: a ledger file that exists but whose content does not
parse (which includes an empty file) makes `has_been_alerted` raise a
`json.decoder.JSONDecodeError` rather than return `false`; only an absent
file is treated as an empty ledger. -/
theorem has_been_alerted_corrupt_counterexample :
    has_been_alerted (some none) 0 = .error () ∧
    (Except.error () : Except Unit Bool) ≠ .ok false ∧
    has_been_alerted none 0 = .ok false :=
  ⟨rfl, fun h => Except.noConfusion h, rfl⟩

/-- C9 (amended): `has_been_alerted` returns `false` without raising only
when the ledger file is absent; a present file that is empty or corrupt
raises the JSON parse error (propagating to the caller); a well-formed
file yields the membership test on its records. -/
theorem has_been_alerted_read_behavior (s : Int) :
    has_been_alerted none s = .ok false ∧
    has_been_alerted (some none) s = .error () ∧
    ∀ L : List Int, has_been_alerted (some (some L)) s = .ok (L.contains s) :=
  ⟨rfl, rfl, fun _ => rfl⟩

/-- C4: every completed `_update_alert_file` call leaves a parsed ledger of
at most three records; with exactly three records present, adding a fourth
evicts the oldest by insertion order; recording five start times in
sequence from an absent file leaves exactly the last three. -/
theorem update_alert_file_bound_fifo :
    (∀ (s : Int) (f f' : LedgerFile), _update_alert_file s f = .ok f' →
      ∃ l : List Int, f' = some (some l) ∧ l.length ≤ 3) ∧
    (∀ (L : List Int) (s : Int), L.length = 3 →
      _update_alert_file s (some (some L)) = .ok (some (some (L.drop 1 ++ [s])))) ∧
    (∀ s1 s2 s3 s4 s5 : Int,
      recordAll [s1, s2, s3, s4, s5] none = .ok (some (some [s3, s4, s5]))) := by
  refine ⟨?_, ?_, ?_⟩
  · intro s f f' h
    match f with
    | none =>
      simp only [_update_alert_file, Except.ok.injEq] at h
      exact ⟨_, h.symm, lastThree_length_le _⟩
    | some none => simp [_update_alert_file] at h
    | some (some alerts) =>
      simp only [_update_alert_file, Except.ok.injEq] at h
      exact ⟨_, h.symm, lastThree_length_le _⟩
  · intro L s h3
    have hlen : (L ++ [s]).length - 3 = 1 := by simp [h3]
    simp only [_update_alert_file, lastThree, hlen, Except.ok.injEq]
    rw [List.drop_append_of_le_length (by omega)]
  · intro s1 s2 s3 s4 s5
    rfl

/-- C4 witness: appending a fourth record to a full ledger evicts the
oldest record. -/
theorem update_alert_file_bound_fifo_witness :
    _update_alert_file 4 (some (some [1, 2, 3])) = .ok (some (some [2, 3, 4])) :=
  update_alert_file_bound_fifo.2.1 [1, 2, 3] 4 rfl

/-- C6 counterexample: with a 21600-second threshold, one contiguous
streak of four empty-result cycles at times 0, 21601, 21602 and 43204
(duration 43204 seconds, which exceeds the threshold) triggers
`notify_failure` twice, not exactly once: the window resets after the
first escalation and a second threshold-exceeding wait re-escalates
within the same streak. -/
theorem failure_escalation_counterexample :
    runFail 21600 [(0, false), (21601, false), (21602, false), (43204, false)] none =
      (none, 2) := rfl

/-- C6 (amended): the first failure of a streak records
`first_failure_at`; a failure cycle observing `now - first_failure_at >
threshold` triggers the escalation and clears the window (so a streak
longer than twice the threshold escalates again); any success clears the
window; and a failure streak all of whose cycles lie within the threshold
of its first cycle triggers no escalation. -/
theorem failure_tracker_step_properties (th : Int) :
    (∀ (st : Option Int) (now : Int), mainStep th st now true = (none, false)) ∧
    (∀ now : Int, mainStep th none now false = (some now, false)) ∧
    (∀ t0 now : Int, now - t0 > th → mainStep th (some t0) now false = (none, true)) ∧
    (∀ t0 now : Int, now - t0 ≤ th → mainStep th (some t0) now false = (some t0, false)) ∧
    (∀ (t0 : Int) (ts : List Int), (∀ t ∈ ts, t - t0 ≤ th) →
      runFail th ((t0, false) :: ts.map fun t => (t, false)) none = (some t0, 0)) := by
  have hwithin : ∀ (t0 : Int) (ts : List Int), (∀ t ∈ ts, t - t0 ≤ th) →
      runFail th (ts.map fun t => (t, false)) (some t0) = (some t0, 0) := by
    intro t0 ts h
    induction ts with
    | nil => rfl
    | cons a as ih =>
      have ha : a - t0 ≤ th := h a (List.mem_cons_self a as)
      have hrest := ih fun t ht => h t (List.mem_cons_of_mem a ht)
      simp [runFail, mainStep, show ¬ a - t0 > th by omega, hrest]
  refine ⟨fun st now => by simp [mainStep], fun now => rfl, ?_, ?_, ?_⟩
  · intro t0 now h
    simp [mainStep, h]
  · intro t0 now h
    simp [mainStep, show ¬ now - t0 > th by omega]
  · intro t0 ts h
    simp [runFail, mainStep, hwithin t0 ts h]

/-- C6 witness: a two-cycle failure streak of duration 21500 seconds,
below the 21600-second threshold, triggers no escalation. -/
theorem failure_tracker_step_properties_witness :
    runFail 21600 ((0, false) :: [(21500 : Int)].map fun t => (t, false)) none =
      (some 0, 0) :=
  (failure_tracker_step_properties 21600).2.2.2.2 0 [21500] (by decide)

/-- C1: with a parsed ledger, if the ledger already contains the
rotation's `start_time` then `send_notification` returns without invoking
the notifier and without touching the ledger; and alerting a
not-yet-alerted rotation once (the notifier returning normally) records it
in the ledger and makes any immediately following attempt a no-op, so the
sequence performs exactly one notifier call. -/
theorem send_notification_dedup (rot : Rotation) (w : NotifyWorld) (L : List Int)
    (hL : w.ledgerFile = some (some L)) :
    (rot.start_time ∈ L → ∀ notifier : NotifierResult,
      send_notification rot notifier w = .ok w) ∧
    (rot.start_time ∉ L → ∀ b : Bool,
      send_notification rot (.ok b) w =
        .ok { ledgerFile := some (some (lastThree (L ++ [rot.start_time])))
              sent := w.sent ++ [rot.start_time] } ∧
      ∀ n2 : NotifierResult,
        send_notification rot n2
            { ledgerFile := some (some (lastThree (L ++ [rot.start_time])))
              sent := w.sent ++ [rot.start_time] } =
          .ok { ledgerFile := some (some (lastThree (L ++ [rot.start_time])))
                sent := w.sent ++ [rot.start_time] }) := by
  constructor
  · intro hmem notifier
    simp [send_notification, has_been_alerted, hL, hmem]
  · intro hnm b
    constructor
    · simp [send_notification, has_been_alerted, hL, hnm, _update_alert_file]
    · intro n2
      simp [send_notification, has_been_alerted, mem_lastThree_snoc]

/-- C1 witness: a rotation whose start time is already in the ledger is
not re-notified, even when the notifier would raise. -/
theorem send_notification_dedup_witness :
    send_notification
        { seconds_until_rotation := 5, stage := "Spawning Grounds", boss := "Cohozuna",
          weapons := [], type := "Regular", start_time := 42, end_time := 99 }
        .exn { ledgerFile := some (some [42]), sent := [] } =
      .ok { ledgerFile := some (some [42]), sent := [] } :=
  (send_notification_dedup
      { seconds_until_rotation := 5, stage := "Spawning Grounds", boss := "Cohozuna",
        weapons := [], type := "Regular", start_time := 42, end_time := 99 }
      { ledgerFile := some (some [42]), sent := [] } [42] rfl).1 (by decide) .exn

/-- A concrete rotation used by the delivery-failure counterexample. -/
def rotEx3 : Rotation :=
  { seconds_until_rotation := 5, stage := "Spawning Grounds", boss := "Cohozuna",
    weapons := [], type := "Regular", start_time := 7, end_time := 9 }

/-- C3 counterexample: the program ignores the notifier's return value, so
a delivery that fails by returning an unsuccessful result (rather than
raising) still records the rotation in the ledger: starting from an empty
ledger, `send_notification` with a notifier outcome of `false` leaves the
ledger holding the rotation, not unchanged. -/
theorem send_notification_failed_delivery_counterexample :
    send_notification rotEx3 (.ok false) { ledgerFile := some (some []), sent := [] } =
      .ok { ledgerFile := some (some [7]), sent := [7] } ∧
    (some (some [7]) : LedgerFile) ≠ some (some []) := by
  refine ⟨rfl, ?_⟩
  simp

/-- C3 (amended): if delivery fails by the notifier raising an exception,
the rotation is not recorded (the ledger file is unchanged), so a later
cycle retries it; but if the notifier merely reports failure through its
return value, the rotation is recorded anyway. -/
theorem send_notification_delivery_exception_ledger (rot : Rotation) (w : NotifyWorld)
    (L : List Int) (hL : w.ledgerFile = some (some L)) (hnm : rot.start_time ∉ L) :
    send_notification rot .exn w =
      .ok { ledgerFile := w.ledgerFile, sent := w.sent ++ [rot.start_time] } ∧
    send_notification rot (.ok false) w =
      .ok { ledgerFile := some (some (lastThree (L ++ [rot.start_time])))
            sent := w.sent ++ [rot.start_time] } := by
  constructor
  · simp [send_notification, has_been_alerted, hL, hnm]
  · simp [send_notification, has_been_alerted, hL, hnm, _update_alert_file]

/-- C3 witness: with an empty parsed ledger, a raising notifier leaves the
ledger unchanged while the delivery attempt is made. -/
theorem send_notification_delivery_exception_ledger_witness :
    send_notification rotEx3 .exn { ledgerFile := some (some []), sent := [] } =
      .ok { ledgerFile := some (some []), sent := [7] } :=
  (send_notification_delivery_exception_ledger rotEx3
      { ledgerFile := some (some []), sent := [] } [] rfl (by decide)).1

/-- A well-formed raw rotation node with the given times and stage. -/
def wfRaw (startT endT : Int) (stage : String) : RawRotation :=
  { startTime := some startT, endTime := some endT,
    setting := some { coopStage := some stage, boss := some (some "Cohozuna"),
                      weapons := some [] } }

/-- A raw rotation node lacking its stage field. -/
def badRaw : RawRotation :=
  { startTime := some 200, endTime := some 300,
    setting := some { coopStage := none, boss := some (some "Horrorboros"),
                      weapons := some [] } }

/-- A payload of three rotations of which exactly the middle one is
malformed. -/
def exPayload2 : List (String × List RawRotation) :=
  [("Regular", [wfRaw 100 200 "Spawning Grounds", badRaw,
                wfRaw 300 400 "Gone Fission Hydroplant"]),
   ("Big Run", []), ("Eggstra Work", [])]

/-- The tidied form of the first well-formed node of `exPayload2`. -/
def rotWF1 : Rotation :=
  { seconds_until_rotation := 100, stage := "Spawning Grounds", boss := "Cohozuna",
    weapons := [], type := "Regular", start_time := 100, end_time := 200 }

/-- The tidied form of the last well-formed node of `exPayload2`. -/
def rotWF2 : Rotation :=
  { seconds_until_rotation := 300, stage := "Gone Fission Hydroplant", boss := "Cohozuna",
    weapons := [], type := "Regular", start_time := 300, end_time := 400 }

/-- C2 counterexample: in a payload of three rotations where exactly the
middle one lacks its stage field and the other two are well-formed (their
individual tidy steps succeed), `tidy_schedules` returns the empty list —
the single `KeyError` aborts the whole comprehension and the handler
returns `[]` — instead of the two remaining rotations. -/
theorem tidy_schedules_malformed_counterexample :
    tidy_schedules exPayload2 (fun _ => 0) none = [] ∧
    _tidy_rotation badRaw "Regular" 0 = .error () ∧
    _tidy_rotation (wfRaw 100 200 "Spawning Grounds") "Regular" 0 = .ok rotWF1 ∧
    _tidy_rotation (wfRaw 300 400 "Gone Fission Hydroplant") "Regular" 0 = .ok rotWF2 :=
  ⟨rfl, rfl, rfl, rfl⟩

/-- If a node of the flattened payload fails to tidy (for any clock
reading), the whole tidying pass raises. -/
lemma tidyAll_error_of_mem (clock : Nat → Int) (ty : String) (rot : RawRotation)
    (hbad : ∀ now : Int, _tidy_rotation rot ty now = .error ()) :
    ∀ (l : List (String × RawRotation)) (i : Nat), (ty, rot) ∈ l →
      tidyAll clock i l = .error () := by
  intro l
  induction l with
  | nil => intro i h; cases h
  | cons p rest ih =>
    intro i hmem
    rcases List.mem_cons.mp hmem with h | h
    · subst h
      simp [tidyAll, hbad (clock i)]
    · cases hp : _tidy_rotation p.2 p.1 (clock i) with
      | error e => cases e; simp [tidyAll, hp]
      | ok r => simp [tidyAll, hp, ih (i + 1) h]

/-- C2 (amended): a payload in which some rotation node lacks a required
field does not drop just that node: the whole batch is aborted and
`tidy_schedules` returns the empty list. -/
theorem tidy_schedules_malformed_aborts (schedules : List (String × List RawRotation))
    (clock : Nat → Int) (ledger : LedgerFile) (ty : String) (rot : RawRotation)
    (hmem : (ty, rot) ∈ flattenSchedules schedules)
    (hbad : ∀ now : Int, _tidy_rotation rot ty now = .error ()) :
    tidy_schedules schedules clock ledger = [] := by
  rw [tidy_schedules, tidyAll_error_of_mem clock ty rot hbad _ 0 hmem]

/-- C2 witness: the three-rotation payload with one stage-less node yields
the empty list, here with a parsed empty ledger present. -/
theorem tidy_schedules_malformed_aborts_witness :
    tidy_schedules exPayload2 (fun _ => 0) (some (some [])) = [] :=
  tidy_schedules_malformed_aborts exPayload2 (fun _ => 0) (some (some []))
    "Regular" badRaw (by decide) (fun _ => rfl)

/-- Two copies of one raw node sharing a single start time. -/
def exPayload7 : List (String × List RawRotation) :=
  [("Regular", [wfRaw 1000 2000 "Spawning Grounds", wfRaw 1000 2000 "Spawning Grounds"])]

/-- A clock whose successive `datetime.now()` reads advance by 100
seconds. -/
def exClock7 : Nat → Int := fun i => 100 * (i : Int)

/-- The second-processed node of `exPayload7`, tidied at clock reading
100. -/
def rot7a : Rotation :=
  { seconds_until_rotation := 900, stage := "Spawning Grounds", boss := "Cohozuna",
    weapons := [], type := "Regular", start_time := 1000, end_time := 2000 }

/-- The first-processed node of `exPayload7`, tidied at clock reading 0. -/
def rot7b : Rotation :=
  { seconds_until_rotation := 1000, stage := "Spawning Grounds", boss := "Cohozuna",
    weapons := [], type := "Regular", start_time := 1000, end_time := 2000 }

/-- C7 counterexample: `datetime.now()` is read once per item, not once
per call: two rotations with the same start time, tidied under a clock
that advances 100 seconds between reads, come out with different
`seconds_until_rotation` values, so no single "now" value explains the
whole batch. -/
theorem tidy_per_item_clock_counterexample :
    tidy_schedules exPayload7 exClock7 none = [rot7a, rot7b] ∧
    ¬ ∃ n0 : Int, ∀ r ∈ tidy_schedules exPayload7 exClock7 none,
        r.seconds_until_rotation = r.start_time - n0 := by
  refine ⟨rfl, ?_⟩
  rintro ⟨n0, h⟩
  have h1 := h rot7a (by decide)
  have h2 := h rot7b (by decide)
  simp [rot7a, rot7b] at h1 h2
  omega

/-- A successfully tidied rotation's offset is its start minus this call's
own clock reading. -/
lemma tidy_seconds_eq (rot : RawRotation) (ty : String) (now : Int) (r : Rotation)
    (h : _tidy_rotation rot ty now = .ok r) :
    r.seconds_until_rotation = r.start_time - now := by
  unfold _tidy_rotation at h
  split at h
  · split at h
    · cases h; rfl
    · cases h
  · cases h

/-- C7 (amended): within one `tidy_schedules` pass, "now" is sampled once
per rotation node, in feed iteration order: the rotation produced at
position `j` of the tidied sequence has `seconds_until_rotation` equal to
its start time minus the clock sample of that position, not minus one
shared per-call sample. -/
theorem tidyAll_uses_per_item_clock (clock : Nat → Int) :
    ∀ (l : List (String × RawRotation)) (i : Nat) (out : List Rotation),
      tidyAll clock i l = .ok out →
      ∀ (j : Nat) (hj : j < out.length),
        (out.get ⟨j, hj⟩).seconds_until_rotation =
          (out.get ⟨j, hj⟩).start_time - clock (i + j) := by
  intro l
  induction l with
  | nil =>
    intro i out h j hj
    simp only [tidyAll, Except.ok.injEq] at h
    subst h
    cases hj
  | cons p rest ih =>
    intro i out h j hj
    cases hp : _tidy_rotation p.2 p.1 (clock i) with
    | error e => simp [tidyAll, hp] at h
    | ok r =>
      cases hrest : tidyAll clock (i + 1) rest with
      | error e => simp [tidyAll, hp, hrest] at h
      | ok rs =>
        have hout : out = r :: rs := by
          simp only [tidyAll, hp, hrest, Except.ok.injEq] at h
          exact h.symm
        subst hout
        match j with
        | 0 => simpa using tidy_seconds_eq p.2 p.1 (clock i) r hp
        | Nat.succ k =>
          have hk : k < rs.length := Nat.lt_of_succ_lt_succ (by simpa using hj)
          have := ih (i + 1) rs hrest k hk
          have harith : i + 1 + k = i + (k + 1) := by omega
          rw [harith] at this
          simpa using this

/-- C7 witness: the first node of the two-identical-node payload is tidied
against the clock sample of position 0. -/
theorem tidyAll_uses_per_item_clock_witness :
    rot7b.seconds_until_rotation = rot7b.start_time - exClock7 (0 + 0) :=
  tidyAll_uses_per_item_clock exClock7 (flattenSchedules exPayload7) 0
    [rot7b, rot7a] rfl 0 (by decide)

/-- C5: for a future candidate (the code's `seconds_until_rotation > 0`
branch) whose local hour-of-day lies inside the quiet window, the
effective fire instant `now + sleep_time` is `quiet_end_hour:00` on the
candidate's local calendar day, rolled forward by exactly one day when
that instant is not strictly after now; the computed sleep is positive, so
the program really sleeps until that instant. -/
theorem quiet_deferral_future_candidate (next : Rotation) (now off qs qe : Int)
    (hfut : 0 < next.seconds_until_rotation)
    (hq : _is_within_quiet_hours (next.start_time + off) qs qe = true)
    (hqe : 0 ≤ qe) (hstart : now < next.start_time) :
    (now + off) + sleepTime next now off qs qe =
      (if dayStart (next.start_time + off) + qe * 3600 ≤ now + off
       then dayStart (next.start_time + off) + qe * 3600 + 86400
       else dayStart (next.start_time + off) + qe * 3600) ∧
    0 < sleepTime next now off qs qe := by
  have hb : ¬ next.seconds_until_rotation ≤ 0 := by omega
  simp only [sleepTime, if_neg hb, hq, if_true, _calculate_sleep_until_quiet_end]
  unfold dayStart
  constructor
  · split <;> omega
  · have hmod : 0 ≤ (next.start_time + off) % 86400 := by omega
    split <;> omega

/-- A concrete future rotation starting at local hour 2. -/
def rotC5 : Rotation :=
  { seconds_until_rotation := 7200, stage := "Spawning Grounds", boss := "Cohozuna",
    weapons := [], type := "Regular", start_time := 7200, end_time := 9900 }

/-- C5 witness: a rotation at local hour 2 inside the quiet window
`[1, 8)` seen from midnight defers the alert to 08:00 the same day. -/
theorem quiet_deferral_future_candidate_witness :
    (0 : Int) + 0 + sleepTime rotC5 0 0 1 8 = 28800 ∧ 0 < sleepTime rotC5 0 0 1 8 := by
  have h := quiet_deferral_future_candidate rotC5 0 0 1 8 (by decide) (by decide)
    (by decide) (by decide)
  exact ⟨h.1.trans (by decide), h.2⟩

/-- C10: with `quiet_start_hour` strictly greater than `quiet_end_hour`,
the quiet-hours check rejects every instant, so the window behaves as
empty and the computed sleep never defers an alert: it is zero for a
started rotation and exactly `seconds_until_rotation` otherwise. -/
theorem inverted_quiet_window_empty (qs qe : Int) (h : qe < qs) :
    (∀ t : Int, _is_within_quiet_hours t qs qe = false) ∧
    (∀ (next : Rotation) (now off : Int),
      sleepTime next now off qs qe =
        if next.seconds_until_rotation ≤ 0 then 0 else next.seconds_until_rotation) := by
  have hiw : ∀ t : Int, _is_within_quiet_hours t qs qe = false := by
    intro t
    simp only [_is_within_quiet_hours, Bool.and_eq_false_iff, decide_eq_false_iff_not,
      not_le, not_lt]
    omega
  refine ⟨hiw, ?_⟩
  intro next now off
  simp [sleepTime, hiw]

/-- C10 witness: a midnight-spanning configuration (start 22, end 8)
rejects local hour 2 and leaves a future rotation's sleep equal to its
offset. -/
theorem inverted_quiet_window_empty_witness :
    _is_within_quiet_hours 7200 22 8 = false ∧
    sleepTime rotC5 0 0 22 8 =
      if rotC5.seconds_until_rotation ≤ 0 then 0 else rotC5.seconds_until_rotation := by
  have h := inverted_quiet_window_empty 22 8 (by decide)
  exact ⟨h.1 7200, h.2 rotC5 0 0⟩

/-- A parsed cache payload whose three groups are present but hold no
rotation nodes. -/
def emptyNodesPayload : RawPayload :=
  { regularSchedules := some { nodes := some [] }
    bigRunSchedules := some { nodes := some [] }
    teamContestSchedules := some { nodes := some [] }
    extras := [] }

/-- C8 counterexample: a corrupt cache file, and a parsed cache payload
containing no node with a parseable end time, both make `get_schedules`
raise (`json.JSONDecodeError` and `ValueError` from `min()` of an empty
generator, respectively) instead of falling through to the origin fetch —
even though the pending fetch would have produced a well-formed result. -/
theorem cache_read_raises_counterexample :
    get_schedules (some none) 0 (.ok emptyNodesPayload) = .error () ∧
    get_schedules (some (some emptyNodesPayload)) 0 (.ok emptyNodesPayload) = .error () ∧
    _extract_schedule_nodes emptyNodesPayload =
      .ok [("Regular", []), ("Big Run", []), ("Eggstra Work", [])] :=
  ⟨rfl, rfl, rfl⟩

/-- C8 (amended): only a missing cache file behaves as a cache-miss,
falling through to the origin fetch (whose own `RequestException` yields
the empty schedule groups); a corrupt cache file, or a cached payload
with no parseable node end time, makes `get_schedules` raise, the error
propagating to the main-loop handler rather than being treated as a
cache-miss. -/
theorem get_schedules_cache_behavior (now : Int) (fetch : Except Unit RawPayload)
    (p : RawPayload) :
    (get_schedules none now fetch =
      match fetch with
      | .error _ => .ok emptySchedules
      | .ok q => _extract_schedule_nodes q) ∧
    (get_schedules (some none) now fetch = .error ()) ∧
    ((∀ r ∈ cacheNodes p, r.endTime = none) →
      get_schedules (some (some p)) now fetch = .error ()) := by
  refine ⟨rfl, rfl, ?_⟩
  intro h
  have hmap : endTimesAll (cacheNodes p) = none ∨
      endTimesAll (cacheNodes p) = some [] := by
    cases hc : cacheNodes p with
    | nil => right; rfl
    | cons r rs =>
      left
      have hr : r.endTime = none := h r (hc ▸ List.mem_cons_self r rs)
      simp [endTimesAll, hr]
  rcases hmap with hmap | hmap <;>
    simp [get_schedules, _cache_is_valid, hmap]

/-- C8 witness: a cached payload whose groups hold no nodes makes
`get_schedules` raise regardless of the pending fetch outcome. -/
theorem get_schedules_cache_behavior_witness :
    get_schedules (some (some emptyNodesPayload)) 5 (.ok emptyNodesPayload) = .error () :=
  (get_schedules_cache_behavior 5 (.ok emptyNodesPayload) emptyNodesPayload).2.2 (by decide)

end SalmonRun
